import Mathlib

/-
Verification of the actor module (src/lib/index.ts): subscription registry,
document-relay engine, command-bus dispatch and hydration.  External
collaborators (the Mingo query evaluator, the Delivery Channel, the Node
events module) are modelled at their documented interfaces; everything the
core itself does is translated directly from the source.
-/

namespace ModuleActor

/-- Documents exchanged between actors: an open key/value record with a
mandatory schemaType discriminator (interface SchemaType in src/lib/index.ts).
Field values are modelled as strings. -/
structure Doc where
  schemaType : String
  fields : List (String × String) := []
deriving DecidableEq

/-- Filters handed to the external Mingo query evaluator.  The core touches a
query only through the test predicate below, so the model keeps the fragment
the development needs: the empty query (match-all, the object written as two
braces in JS) and single-field equality. -/
inductive Query where
  | all : Query
  | fieldEq (key value : String) : Query
deriving DecidableEq

/-- Reads a field of a document the way the query evaluator sees the JSON
object: the schemaType discriminator is an ordinary field. -/
def Doc.get (d : Doc) (k : String) : Option String :=
  if k == "schemaType" then some d.schemaType else d.fields.lookup k

/-- Does document d satisfy query q (the external predicate, in the source
new Mingo.Query(q).test(d)); the empty query matches every document. -/
def Query.test : Query → Doc → Bool
  | .all, _ => true
  | .fieldEq k v, d => d.get k == some v

/-- Params record of a subscribe command (SubscribeCommand in
src/lib/index.ts).  Absent optional fields take their JS-falsy defaults. -/
structure SubParams where
  webhook : String := ""
  schemaType : String := ""
  throttle : Option Nat := none
  maxSize : Option Nat := none
  hydrate : Bool := false
  query : Option Query := none
deriving DecidableEq

/-- Command documents (interface Command in src/lib/index.ts): schemaType is
always the string command; params is read through the subscribe-command lens,
the only shape the core inspects. -/
structure Command where
  command : String
  params : SubParams := {}
  schemaType : String := "command"
  token : String := ""
  timestamp : Nat := 0
deriving DecidableEq

/-- One outbound call to the Delivery Channel (sendDocuments): the target
webhook URL and the batch posted to it in a single call. -/
structure Delivery where
  webhook : String
  documents : List Doc
deriving DecidableEq

/-- Events the actor emits on its bus: a command event per incoming command
document, and a subscription event on every registry upsert. -/
inductive Event where
  | command (doc : Command) : Event
  | subscription (doc : Command) : Event
deriving DecidableEq

/-- Observable actions of one dispatch, listed in program order: the registry
write performed by handleSubscription, an emitted event, or a Delivery Channel
call. -/
inductive Action where
  | recordSubscription (key : String) (doc : Command) : Action
  | emitEvent (e : Event) : Action
  | deliver (d : Delivery) : Action
deriving DecidableEq

/-- JS object update obj[k] = v on a string-keyed object modelled as an
insertion-ordered association list: an existing key keeps its position and
gets the new value, a fresh key is appended at the end. -/
def upsert {α : Type} (m : List (String × α)) (k : String) (v : α) :
    List (String × α) :=
  if m.any fun p => p.1 == k
  then m.map fun p => if p.1 == k then (k, v) else p
  else m ++ [(k, v)]

/-- JS object property read obj[k] on the same representation. -/
def lookupKey {α : Type} (m : List (String × α)) (k : String) : Option α :=
  match m with
  | [] => none
  | p :: rest => if p.1 == k then some p.2 else lookupKey rest k

/-- Per-schema-type registration record (SchemaTypeConfig in
src/lib/index.ts).  The onIncoming callback is modelled at its use sites
(commandOnIncoming for the built-in command type, an explicit argument of
dispatchIncoming for the routes), so the stored record keeps the data flags
the core reads. -/
structure SchemaTypeConfig where
  webhook : Bool
  persist : Option Bool := none
  allowSubscribe : Option Bool := none
deriving DecidableEq

/-- Options of registerSubscriptionHandler: an optional hydrate capability
mapping the subscribe command to a snapshot batch; a thrown error or rejected
promise of the capability is an error result. -/
structure SubscriptionHandlerOptions where
  hydrate : Option (Command → Except String (List Doc)) := none

/-- One command-bus listener installed by registerSubscriptionHandler: the
schema type it filters on, together with its options. -/
structure SubHandler where
  schemaType : String
  options : SubscriptionHandlerOptions

/-- Actor state: the subscription registry (webhook-keyed, insertion ordered),
the schema registry, and the command listeners installed by
registerSubscriptionHandler, in registration order. -/
structure ActorState where
  subscriptions : List (String × Command) := []
  config : List (String × SchemaTypeConfig) := []
  handlers : List SubHandler := []

/-- relayToSubscription (src/lib/index.ts lines 175-184): filter the batch by
the subscription query (an absent query defaults to the empty, match-all
query) and call the Delivery Channel once with the whole matching subsequence,
only when it is non-empty. -/
def relayToSubscription (documents : List Doc) (subscription : Command) :
    List Delivery :=
  if (documents.filter fun doc =>
        Query.test (subscription.params.query.getD Query.all) doc).length != 0
  then [⟨subscription.params.webhook,
        documents.filter fun doc =>
          Query.test (subscription.params.query.getD Query.all) doc⟩]
  else []

/-- relayToAllSubscriptions (src/lib/index.ts lines 162-173): iterate the
registry entries in key order (JS objects iterate their string keys in
insertion order, each key holding one value) and relay the batch to every
subscription whose params.schemaType equals the incoming schematype. -/
def relayToAllSubscriptions (subs : List (String × Command))
    (documents : List Doc) (schematype : String) : List Delivery :=
  subs.foldl (fun acc p =>
    if schematype == p.2.params.schemaType
    then acc ++ relayToSubscription documents p.2
    else acc) []

/-- handleSubscription (src/lib/index.ts lines 157-160): upsert the registry
at the webhook key, then emit the subscription event. -/
def handleSubscription (st : ActorState) (doc : Command) :
    ActorState × List Action :=
  ({ st with subscriptions := upsert st.subscriptions doc.params.webhook doc },
   [Action.recordSubscription doc.params.webhook doc,
    Action.emitEvent (Event.subscription doc)])

/-- One run of the command listener installed by registerSubscriptionHandler
(src/lib/index.ts lines 138-150) on one command document: on a subscribe
command for its schema type it records the subscription and, when both the
hydrate capability and params.hydrate are set, awaits the capability and
relays its result to that very subscription; a failed capability yields no
delivery and leaves the recorded subscription in place. -/
def runSubHandler (h : SubHandler) (cmd : Command) (st : ActorState) :
    ActorState × List Action :=
  if cmd.command == "subscribe" && cmd.params.schemaType == h.schemaType then
    let r := handleSubscription st cmd
    match h.options.hydrate with
    | some cap =>
      if cmd.params.hydrate then
        match cap cmd with
        | .ok docs => (r.1, r.2 ++ (relayToSubscription docs cmd).map Action.deliver)
        | .error _ => (r.1, r.2)
      else (r.1, r.2)
    | none => (r.1, r.2)
  else (st, [])

/-- Fan-out of one command event to the installed subscription handlers, in
registration order (emit on the Node event bus over the listeners added by
registerSubscriptionHandler; these listeners are async functions, so they
never throw into emit). -/
def dispatchCommand (st : ActorState) (cmd : Command) :
    ActorState × List Action :=
  st.handlers.foldl (fun acc h =>
    ((runSubHandler h cmd acc.1).1, acc.2 ++ (runSubHandler h cmd acc.1).2))
    (st, [])

/-- registerSubscriptionHandler (src/lib/index.ts lines 134-151): addListener
appends one more command-bus listener for the given schema type. -/
def registerSubscriptionHandler (st : ActorState) (schemaType : String)
    (options : SubscriptionHandlerOptions) : ActorState :=
  { st with handlers := st.handlers ++ [⟨schemaType, options⟩] }

/-- register (src/lib/index.ts lines 93-101): store the config under the
schema type (overwriting any previous entry) and, when allowSubscribe is
truthy, install a subscription handler with default options. -/
def register (st : ActorState) (schemaType : String)
    (config : SchemaTypeConfig) : ActorState :=
  let st1 := { st with config := upsert st.config schemaType config }
  if config.allowSubscribe.getD false
  then registerSubscriptionHandler st1 schemaType {}
  else st1

/-- Config of the built-in command registration (registerCommandHandler,
src/lib/index.ts lines 107-118): webhook true, persist false, allowSubscribe
left unset. -/
def commandTypeConfig : SchemaTypeConfig :=
  { webhook := true, persist := some false }

/-- Actor state right after the constructor (src/lib/index.ts lines 54-57),
which calls registerCommandHandler and hence register on the command type. -/
def initActor : ActorState := register {} "command" commandTypeConfig

/-- State reached from a freshly constructed actor by a sequence of register
calls. -/
def setupActor (regs : List (String × SchemaTypeConfig)) : ActorState :=
  regs.foldl (fun st p => register st p.1 p.2) initActor

/-- onIncoming of the built-in command endpoint (src/lib/index.ts lines
109-114): forEach over the batch emitting one command event per document. -/
def commandOnIncoming (documents : List Command) : List Event :=
  documents.foldl (fun acc doc => acc ++ [Event.command doc]) []

/-- One inbound POST on a registered schema type route (the middleware getter,
src/lib/index.ts lines 62-75): first relay the raw batch to all current
subscriptions of that type, then, when an onIncoming callback is configured,
invoke it with the batch and the actor and respond with its JSON result, a
falsy result becoming the null response (modelled as none); without a callback
the route only ends the response (no JSON body, the outer none).  The callback
receives the actor itself, so it is modelled as a state transformer. -/
def dispatchIncoming (st : ActorState) (schematype : String)
    (documents : List Doc)
    (onIncoming : Option (List Doc → ActorState → ActorState × Option String)) :
    ActorState × List Delivery × Option (Option String) :=
  let ds := relayToAllSubscriptions st.subscriptions documents schematype
  match onIncoming with
  | some f =>
    let r := f documents st
    (r.1, ds, some r.2)
  | none => (st, ds, none)

/-- Emit semantics of the Node events module for plain synchronous listeners
(the bus behind onCommand, src/lib/index.ts lines 228-230): call each listener
in registration order; a listener mutates the shared actor state and may
throw; a thrown error propagates out of emit at once, so the remaining
listeners are skipped, while state changes already made are kept.  The third
component counts the listeners that actually ran. -/
def emitToListeners
    (listeners : List (Command → ActorState → ActorState × Option String))
    (cmd : Command) (st : ActorState) : ActorState × Option String × Nat :=
  match listeners with
  | [] => (st, none, 0)
  | l :: rest =>
    let r := l cmd st
    match r.2 with
    | some e => (r.1, some e, 1)
    | none =>
      let t := emitToListeners rest cmd r.1
      (t.1, t.2.1, t.2.2 + 1)

/-- Deliveries of a relay run that are addressed to one webhook. -/
def deliveriesTo (w : String) (ds : List Delivery) : List Delivery :=
  ds.filter fun d => d.webhook == w

/-- Number of subscription events in an action trace. -/
def subscriptionEventCount (as : List Action) : Nat :=
  (as.filter fun a =>
    match a with
    | .emitEvent (Event.subscription _) => true
    | _ => false).length

/-- Registry well-formedness maintained by handleSubscription: every entry is
keyed by its subscription webhook and keys are pairwise distinct. -/
def RegistryInv (subs : List (String × Command)) : Prop :=
  (∀ p ∈ subs, p.1 = p.2.params.webhook) ∧ (subs.map Prod.fst).Nodup

instance (subs : List (String × Command)) : Decidable (RegistryInv subs) := by
  unfold RegistryInv
  infer_instance

/-- Sample form document with an open status, for the concrete witnesses. -/
def exFormOpen : Doc :=
  { schemaType := "form", fields := [("status", "open"), ("id", "1")] }

/-- Sample form document with a closed status. -/
def exFormClosed : Doc :=
  { schemaType := "form", fields := [("status", "closed"), ("id", "2")] }

/-- Sample two-document batch. -/
def exBatch : List Doc := [exFormOpen, exFormClosed]

/-- Sample filter keeping only open-status documents. -/
def exOpenQuery : Query := Query.fieldEq "status" "open"

/-- Sample subscribe command for webhook W with the open-status query. -/
def exSubOld : Command :=
  { command := "subscribe",
    params := { webhook := "W", schemaType := "form", query := some exOpenQuery } }

/-- Sample subscribe command for the same webhook W without a query. -/
def exSubNew : Command :=
  { command := "subscribe", params := { webhook := "W", schemaType := "form" } }

/-- Sample subscribe command for a schema type nobody registered. -/
def exSubOrder : Command :=
  { command := "subscribe", params := { webhook := "W", schemaType := "order" } }

/-- Sample subscribe command requesting hydration, with the open-status
query. -/
def exSubHyd : Command :=
  { command := "subscribe",
    params := { webhook := "W", schemaType := "form", hydrate := true,
                query := some exOpenQuery } }

/-- Sample hydrate capability returning the sample batch. -/
def exHydrateOk : Command → Except String (List Doc) :=
  fun _ => Except.ok exBatch

/-- Sample hydrate capability that fails. -/
def exHydrateFail : Command → Except String (List Doc) :=
  fun _ => Except.error "snapshot source unavailable"

/-- Sample subscription handler for form documents with a working hydrate
capability. -/
def exHandlerOk : SubHandler :=
  { schemaType := "form", options := { hydrate := some exHydrateOk } }

/-- Sample subscription handler for form documents with a failing hydrate
capability. -/
def exHandlerFail : SubHandler :=
  { schemaType := "form", options := { hydrate := some exHydrateFail } }

/-- Sample one-entry registry holding the open-status subscription at W. -/
def exRegistryC7 : List (String × Command) := [("W", exSubOld)]

/-- Sample config that allows subscriptions. -/
def formCfgSub : SchemaTypeConfig :=
  { webhook := false, allowSubscribe := some true }

/-- Sample setup registering the form type once. -/
def exRegs : List (String × SchemaTypeConfig) := [("form", formCfgSub)]

/-- Sample setup registering the form type twice, as the source permits. -/
def exRegsTwice : List (String × SchemaTypeConfig) :=
  [("form", formCfgSub), ("form", formCfgSub)]

/-- Sample command that is not a subscribe command. -/
def cmdPing : Command := { command := "ping" }

/-- Sample bus listener that throws synchronously. -/
def listenerThrowing : Command → ActorState → ActorState × Option String :=
  fun _ st => (st, some "listener failure")

/-- Sample bus listener that records that it ran by mutating the registry. -/
def listenerRecording : Command → ActorState → ActorState × Option String :=
  fun cmd st =>
    ({ st with subscriptions := upsert st.subscriptions "ran" cmd }, none)

section Lemmas

/-- Folding a conditional append is filtering then concatenating the pieces. -/
theorem foldl_ite_append {α β : Type} (p : α → Bool) (f : α → List β) :
    ∀ (l : List α) (init : List β),
      l.foldl (fun acc x => if p x then acc ++ f x else acc) init
        = init ++ (l.filter p).flatMap f := by
  intro l
  induction l with
  | nil => intro init; simp
  | cons x xs ih =>
    intro init
    by_cases h : p x = true <;>
      simp [List.filter_cons, h, ih, List.append_assoc]

/-- The relay over all subscriptions is the concatenation, in registry order,
of the per-subscription relays of the type-matching entries. -/
theorem relayToAllSubscriptions_eq_flatMap
    (subs : List (String × Command)) (documents : List Doc)
    (schematype : String) :
    relayToAllSubscriptions subs documents schematype
      = (subs.filter fun p => schematype == p.2.params.schemaType).flatMap
          fun p => relayToSubscription documents p.2 := by
  have h := foldl_ite_append
    (fun p : String × Command => schematype == p.2.params.schemaType)
    (fun p => relayToSubscription documents p.2) subs []
  simpa [relayToAllSubscriptions] using h

/-- Every delivery produced for one subscription is addressed to that
subscription's webhook. -/
theorem relayToSubscription_webhook (documents : List Doc) (s : Command)
    (d : Delivery) (hd : d ∈ relayToSubscription documents s) :
    d.webhook = s.params.webhook := by
  unfold relayToSubscription at hd
  by_cases h :
      (documents.filter fun doc =>
        Query.test (s.params.query.getD Query.all) doc).length ≠ 0 <;>
    simp [h] at hd
  simp [hd]

/-- Every delivery produced for one subscription carries a subset of the
incoming batch. -/
theorem relayToSubscription_documents_subset (documents : List Doc)
    (s : Command) (d : Delivery) (hd : d ∈ relayToSubscription documents s) :
    ∀ x ∈ d.documents, x ∈ documents := by
  unfold relayToSubscription at hd
  by_cases h :
      (documents.filter fun doc =>
        Query.test (s.params.query.getD Query.all) doc).length ≠ 0 <;>
    simp [h] at hd
  intro x hx
  rw [hd] at hx
  exact (List.mem_filter.mp hx).1

/-- A delivery of the full relay comes from one registry entry whose schema
type matches. -/
theorem mem_relayToAllSubscriptions (subs : List (String × Command))
    (documents : List Doc) (schematype : String) (d : Delivery)
    (hd : d ∈ relayToAllSubscriptions subs documents schematype) :
    ∃ p ∈ subs, schematype == p.2.params.schemaType
      ∧ d ∈ relayToSubscription documents p.2 := by
  rw [relayToAllSubscriptions_eq_flatMap] at hd
  rcases List.mem_flatMap.mp hd with ⟨p, hp, hdp⟩
  rcases List.mem_filter.mp hp with ⟨hmem, htype⟩
  exact ⟨p, hmem, htype, hdp⟩

/-- Relaying over a registry with one more entry in front splits into the head
contribution followed by the rest. -/
theorem relayToAllSubscriptions_cons (k : String) (s : Command)
    (rest : List (String × Command)) (documents : List Doc)
    (schematype : String) :
    relayToAllSubscriptions ((k, s) :: rest) documents schematype
      = (if schematype == s.params.schemaType
         then relayToSubscription documents s
         else [])
        ++ relayToAllSubscriptions rest documents schematype := by
  rw [relayToAllSubscriptions_eq_flatMap, relayToAllSubscriptions_eq_flatMap,
    List.filter_cons]
  by_cases h : (schematype == s.params.schemaType) = true <;> simp [h]

/-- Upserting a command at its own webhook key preserves registry
well-formedness. -/
theorem registryInv_upsert (subs : List (String × Command))
    (hinv : RegistryInv subs) (cmd : Command) :
    RegistryInv (upsert subs cmd.params.webhook cmd) := by
  obtain ⟨hkeys, hnodup⟩ := hinv
  unfold upsert
  by_cases hany : (subs.any fun p => p.1 == cmd.params.webhook) = true
  · rw [if_pos hany]
    constructor
    · intro p hp
      rcases List.mem_map.mp hp with ⟨q, hq, hfq⟩
      by_cases hqk : (q.1 == cmd.params.webhook) = true
      · rw [if_pos hqk] at hfq
        rw [← hfq]
      · rw [if_neg hqk] at hfq
        rw [← hfq]
        exact hkeys q hq
    · have hmap : (subs.map fun p =>
          if p.1 == cmd.params.webhook then (cmd.params.webhook, cmd) else p).map
            Prod.fst = subs.map Prod.fst := by
        rw [List.map_map]
        apply List.map_congr_left
        intro p hp
        by_cases hqk : (p.1 == cmd.params.webhook) = true
        · have heq : p.1 = cmd.params.webhook := beq_iff_eq.mp hqk
          simp only [Function.comp_apply, if_pos hqk]
          exact heq.symm
        · simp only [Function.comp_apply, if_neg hqk]
      rw [hmap]
      exact hnodup
  · rw [if_neg hany]
    have hnotin : cmd.params.webhook ∉ subs.map Prod.fst := by
      intro hmem
      rcases List.mem_map.mp hmem with ⟨q, hq, hfq⟩
      exact hany (List.any_eq_true.mpr ⟨q, hq, beq_iff_eq.mpr hfq⟩)
    constructor
    · intro p hp
      rcases List.mem_append.mp hp with hmem | hmem
      · exact hkeys p hmem
      · have hpv : p = (cmd.params.webhook, cmd) := by simpa using hmem
        rw [hpv]
    · rw [List.map_append]
      simp only [List.map_cons, List.map_nil]
      refine List.Nodup.append hnodup (List.nodup_singleton _) ?_
      intro x hx hmem
      rw [List.mem_singleton] at hmem
      subst hmem
      exact hnotin hx

/-- Looking up a key that is absent from the front part of an appended list
falls through to the back part. -/
theorem lookupKey_append_of_notin {α : Type} (m l : List (String × α))
    (k : String) (hk : ∀ p ∈ m, p.1 ≠ k) :
    lookupKey (m ++ l) k = lookupKey l k := by
  induction m with
  | nil => simp
  | cons p rest ih =>
    have hp : p.1 ≠ k := hk p (List.mem_cons_self p rest)
    have hbeq : (p.1 == k) = false := beq_eq_false_iff_ne.mpr hp
    simp only [List.cons_append, lookupKey, hbeq, if_false]
    exact ih fun q hq => hk q (List.mem_cons_of_mem p hq)

/-- Looking up the overwritten key after an in-place overwrite of a present
key finds the new value. -/
theorem lookupKey_map_overwrite {α : Type} (k : String) (v : α) :
    ∀ (m : List (String × α)), (m.any fun p => p.1 == k) = true →
      lookupKey (m.map fun p => if p.1 == k then (k, v) else p) k = some v := by
  intro m
  induction m with
  | nil => intro h; simp at h
  | cons p rest ih =>
    intro hany
    by_cases hp : (p.1 == k) = true
    · rw [List.map_cons, if_pos hp]
      simp [lookupKey]
    · have hrest : (rest.any fun q => q.1 == k) = true := by
        rcases List.any_eq_true.mp hany with ⟨q, hq, hqk⟩
        rcases List.mem_cons.mp hq with hqe | hqmem
        · exact absurd (hqe ▸ hqk) hp
        · exact List.any_eq_true.mpr ⟨q, hqmem, hqk⟩
      rw [List.map_cons, if_neg hp]
      simp only [lookupKey]
      rw [if_neg hp]
      exact ih hrest

/-- After an upsert, looking up the upserted key finds the new value. -/
theorem lookupKey_upsert_self {α : Type} (m : List (String × α)) (k : String)
    (v : α) : lookupKey (upsert m k v) k = some v := by
  unfold upsert
  by_cases hany : (m.any fun p => p.1 == k) = true
  · rw [if_pos hany]
    exact lookupKey_map_overwrite k v m hany
  · rw [if_neg hany]
    have hk : ∀ p ∈ m, p.1 ≠ k := fun p hp hpk =>
      hany (List.any_eq_true.mpr ⟨p, hp, beq_iff_eq.mpr hpk⟩)
    rw [lookupKey_append_of_notin m [(k, v)] k hk]
    simp [lookupKey]

/-- In a well-formed registry, an entry is found by looking up its key. -/
theorem lookupKey_of_mem :
    ∀ (subs : List (String × Command)), RegistryInv subs →
      ∀ (k : String) (v : Command), (k, v) ∈ subs →
        lookupKey subs k = some v := by
  intro subs
  induction subs with
  | nil => intro _ k v hmem; simp at hmem
  | cons p rest ih =>
    intro hinv k v hmem
    obtain ⟨hkeys, hnodup⟩ := hinv
    rw [List.map_cons] at hnodup
    rcases List.mem_cons.mp hmem with heq | hmem
    · rw [← heq]
      simp [lookupKey]
    · have hk : p.1 ≠ k := by
        intro hpk
        have : k ∈ rest.map Prod.fst :=
          List.mem_map.mpr ⟨(k, v), hmem, rfl⟩
        exact (List.nodup_cons.mp hnodup).1 (hpk ▸ this)
      have hbeq : ¬(p.1 == k) = true := by
        simpa using hk
      simp only [lookupKey]
      rw [if_neg hbeq]
      exact ih ⟨fun q hq => hkeys q (List.mem_cons_of_mem p hq),
        (List.nodup_cons.mp hnodup).2⟩ k v hmem

/-- Relaying a well-formed registry produces no delivery to a webhook that is
not one of its keys. -/
theorem deliveriesTo_eq_nil_of_notin (subs : List (String × Command))
    (hinv : RegistryInv subs) (documents : List Doc) (schematype : String)
    (w : String) (hw : w ∉ subs.map Prod.fst) :
    deliveriesTo w (relayToAllSubscriptions subs documents schematype) = [] := by
  apply List.filter_eq_nil_iff.mpr
  intro d hd
  rcases mem_relayToAllSubscriptions subs documents schematype d hd
    with ⟨p, hp, _, hdp⟩
  have hkey : p.1 = p.2.params.webhook := hinv.1 p hp
  have hweb : d.webhook = p.2.params.webhook :=
    relayToSubscription_webhook documents p.2 d hdp
  intro hdw
  apply hw
  have : d.webhook = w := beq_iff_eq.mp hdw
  exact List.mem_map.mpr ⟨p, hp, by rw [hkey, ← hweb, this]⟩

/-- In a well-formed registry the deliveries addressed to one webhook are
exactly what the subscription stored under that webhook is sent, and nothing
when no subscription holds that webhook. -/
theorem deliveriesTo_relayToAllSubscriptions (documents : List Doc)
    (schematype : String) :
    ∀ (subs : List (String × Command)), RegistryInv subs → ∀ (w : String),
      deliveriesTo w (relayToAllSubscriptions subs documents schematype)
        = (match lookupKey subs w with
           | some s =>
             if schematype == s.params.schemaType
             then relayToSubscription documents s
             else []
           | none => []) := by
  intro subs
  induction subs with
  | nil =>
    intro _ w
    simp [relayToAllSubscriptions, deliveriesTo, lookupKey]
  | cons p rest ih =>
    intro hinv w
    obtain ⟨hkeys, hnodup⟩ := hinv
    rcases p with ⟨k, s⟩
    have hkey : k = s.params.webhook := hkeys (k, s) (List.mem_cons_self _ _)
    rw [List.map_cons] at hnodup
    have hknotin : k ∉ rest.map Prod.fst := (List.nodup_cons.mp hnodup).1
    have hrestinv : RegistryInv rest :=
      ⟨fun q hq => hkeys q (List.mem_cons_of_mem _ hq),
       (List.nodup_cons.mp hnodup).2⟩
    rw [relayToAllSubscriptions_cons]
    unfold deliveriesTo
    rw [List.filter_append]
    by_cases hwk : (k == w) = true
    · have hwkeq : k = w := beq_iff_eq.mp hwk
      have htail :
          (relayToAllSubscriptions rest documents schematype).filter
            (fun d => d.webhook == w) = [] := by
        have h0 := deliveriesTo_eq_nil_of_notin rest hrestinv documents
          schematype w (hwkeq ▸ hknotin)
        simpa [deliveriesTo] using h0
      rw [htail, List.append_nil]
      simp only [lookupKey]
      rw [if_pos hwk]
      show List.filter (fun d => d.webhook == w)
            (if (schematype == s.params.schemaType) = true
             then relayToSubscription documents s else [])
          = if (schematype == s.params.schemaType) = true
            then relayToSubscription documents s else []
      by_cases htype : (schematype == s.params.schemaType) = true
      · rw [if_pos htype]
        apply List.filter_eq_self.mpr
        intro d hd
        have hwb := relayToSubscription_webhook documents s d hd
        apply beq_iff_eq.mpr
        rw [hwb, ← hkey]
        exact hwkeq
      · rw [if_neg htype]
        rfl
    · have hhead :
          (if schematype == s.params.schemaType
           then relayToSubscription documents s
           else []).filter (fun d => d.webhook == w) = [] := by
        apply List.filter_eq_nil_iff.mpr
        intro d hd
        by_cases htype : (schematype == s.params.schemaType) = true
        · rw [if_pos htype] at hd
          have hwb := relayToSubscription_webhook documents s d hd
          intro hdw
          apply hwk
          apply beq_iff_eq.mpr
          have hdweq : d.webhook = w := beq_iff_eq.mp hdw
          rw [← hdweq, hwb, ← hkey]
        · rw [if_neg htype] at hd
          simp at hd
      rw [hhead, List.nil_append]
      simp only [lookupKey]
      rw [if_neg hwk]
      have h0 := ih hrestinv w
      simpa [deliveriesTo] using h0

/-- Folding an append of singletons over a list is mapping over it. -/
theorem foldl_append_singleton {α β : Type} (f : α → β) :
    ∀ (l : List α) (init : List β),
      l.foldl (fun acc x => acc ++ [f x]) init = init ++ l.map f := by
  intro l
  induction l with
  | nil => intro init; simp
  | cons x xs ih =>
    intro init
    simp only [List.foldl_cons, List.map_cons]
    rw [ih]
    simp [List.append_assoc]

/-- A subscription-handler run on a command that is not a subscribe command
for its schema type does nothing at all. -/
theorem runSubHandler_noop (h : SubHandler) (cmd : Command) (st : ActorState)
    (hmiss : cmd.command ≠ "subscribe" ∨ cmd.params.schemaType ≠ h.schemaType) :
    runSubHandler h cmd st = (st, []) := by
  have hcond :
      ¬(cmd.command == "subscribe" && cmd.params.schemaType == h.schemaType)
        = true := by
    rcases hmiss with hm | hm
    · simp [beq_eq_false_iff_ne.mpr hm]
    · simp [beq_eq_false_iff_ne.mpr hm]
  unfold runSubHandler
  rw [if_neg hcond]

/-- Folding command dispatch over handlers none of which match leaves the
state and the trace untouched. -/
theorem dispatchCommand_noop_aux (cmd : Command) :
    ∀ (hl : List SubHandler) (st : ActorState) (as : List Action),
      (∀ h ∈ hl,
        cmd.command ≠ "subscribe" ∨ cmd.params.schemaType ≠ h.schemaType) →
      hl.foldl (fun acc h =>
        ((runSubHandler h cmd acc.1).1, acc.2 ++ (runSubHandler h cmd acc.1).2))
        (st, as) = (st, as) := by
  intro hl
  induction hl with
  | nil => intro st as _; rfl
  | cons h rest ih =>
    intro st as hmiss
    simp only [List.foldl_cons]
    rw [runSubHandler_noop h cmd st (hmiss h (List.mem_cons_self _ _))]
    simp only [List.append_nil]
    exact ih st as fun q hq => hmiss q (List.mem_cons_of_mem _ hq)

/-- Dispatching a command none of whose handlers match is a no-op: unchanged
state, no events, no deliveries. -/
theorem dispatchCommand_noop (st : ActorState) (cmd : Command)
    (hmiss : ∀ h ∈ st.handlers,
      cmd.command ≠ "subscribe" ∨ cmd.params.schemaType ≠ h.schemaType) :
    dispatchCommand st cmd = (st, []) :=
  dispatchCommand_noop_aux cmd st.handlers st [] hmiss

/-- register extends the listener list exactly when allowSubscribe is set. -/
theorem handlers_register (st : ActorState) (t : String)
    (c : SchemaTypeConfig) :
    (register st t c).handlers
      = if c.allowSubscribe.getD false
        then st.handlers ++ [⟨t, {}⟩]
        else st.handlers := by
  unfold register registerSubscriptionHandler
  by_cases hc : c.allowSubscribe.getD false = true
  · rw [if_pos hc, if_pos hc]
  · rw [if_neg hc, if_neg hc]

/-- The freshly constructed actor has no command listener: the built-in
command registration leaves allowSubscribe unset. -/
theorem initActor_handlers : initActor.handlers = [] := rfl

/-- Every listener of a state built by register calls comes from the start
state or from a registration whose config allows subscriptions. -/
theorem mem_handlers_foldl_register :
    ∀ (regs : List (String × SchemaTypeConfig)) (st : ActorState)
      (h : SubHandler),
      h ∈ (regs.foldl (fun s p => register s p.1 p.2) st).handlers →
      h ∈ st.handlers
        ∨ ∃ p ∈ regs, p.2.allowSubscribe.getD false = true
            ∧ h.schemaType = p.1 := by
  intro regs
  induction regs with
  | nil => intro st h hmem; exact Or.inl hmem
  | cons q rest ih =>
    intro st h hmem
    simp only [List.foldl_cons] at hmem
    rcases ih (register st q.1 q.2) h hmem with hin | ⟨p, hp, hallow, htype⟩
    · rw [handlers_register] at hin
      by_cases hc : q.2.allowSubscribe.getD false = true
      · rw [if_pos hc] at hin
        rcases List.mem_append.mp hin with hin2 | hin2
        · exact Or.inl hin2
        · have hq : h = ⟨q.1, {}⟩ := by simpa using hin2
          exact Or.inr ⟨q, List.mem_cons_self _ _, hc, by rw [hq]⟩
      · rw [if_neg hc] at hin
        exact Or.inl hin
    · exact Or.inr ⟨p, List.mem_cons_of_mem _ hp, hallow, htype⟩

/-- A matching subscribe command with a working hydrate capability records the
subscription first, emits the subscription event, then delivers the filtered
snapshot to the new subscription, in this program order. -/
theorem runSubHandler_hydrate_ok (h : SubHandler)
    (cap : Command → Except String (List Doc)) (cmd : Command)
    (st : ActorState) (docs : List Doc)
    (hcap : h.options.hydrate = some cap) (hc : cmd.command = "subscribe")
    (ht : cmd.params.schemaType = h.schemaType)
    (hh : cmd.params.hydrate = true) (hres : cap cmd = Except.ok docs) :
    runSubHandler h cmd st
      = ({ st with
            subscriptions := upsert st.subscriptions cmd.params.webhook cmd },
         [Action.recordSubscription cmd.params.webhook cmd,
          Action.emitEvent (Event.subscription cmd)]
           ++ (relayToSubscription docs cmd).map Action.deliver) := by
  have hcond :
      (cmd.command == "subscribe" && cmd.params.schemaType == h.schemaType)
        = true := by
    simp [hc, ht]
  unfold runSubHandler
  rw [if_pos hcond, hcap, hh]
  dsimp only
  rw [hres]
  rfl

/-- A matching subscribe command whose hydrate capability fails still records
the subscription and emits the subscription event, and delivers nothing. -/
theorem runSubHandler_hydrate_error (h : SubHandler)
    (cap : Command → Except String (List Doc)) (cmd : Command)
    (st : ActorState) (e : String)
    (hcap : h.options.hydrate = some cap) (hc : cmd.command = "subscribe")
    (ht : cmd.params.schemaType = h.schemaType)
    (hh : cmd.params.hydrate = true) (hres : cap cmd = Except.error e) :
    runSubHandler h cmd st
      = ({ st with
            subscriptions := upsert st.subscriptions cmd.params.webhook cmd },
         [Action.recordSubscription cmd.params.webhook cmd,
          Action.emitEvent (Event.subscription cmd)]) := by
  have hcond :
      (cmd.command == "subscribe" && cmd.params.schemaType == h.schemaType)
        = true := by
    simp [hc, ht]
  unfold runSubHandler
  rw [if_pos hcond, hcap, hh]
  dsimp only
  rw [hres]
  rfl

end Lemmas

section Claims

/-- Claim C1: relayToAllSubscriptions invokes relayToSubscription exactly for
the current subscriptions whose params.schemaType equals the incoming type,
independently per subscription and in registry order; relayToSubscription
keeps the ordered subsequence of the batch satisfying the subscription's
query predicate (defaulting to match-all when params.query is absent), makes
exactly one delivery call with that whole subsequence when it is non-empty,
and makes none when it is empty. -/
theorem relay_engine_filters_per_subscription_and_batches_once
    (subs : List (String × Command)) (documents : List Doc)
    (schematype : String) (sub : Command) :
    relayToAllSubscriptions subs documents schematype
      = (subs.filter fun p => schematype == p.2.params.schemaType).flatMap
          (fun p => relayToSubscription documents p.2)
    ∧ (documents.filter fun d =>
        Query.test (sub.params.query.getD Query.all) d).Sublist documents
    ∧ relayToSubscription documents sub
        = (if (documents.filter fun d =>
                Query.test (sub.params.query.getD Query.all) d) = []
           then []
           else [⟨sub.params.webhook,
                 documents.filter fun d =>
                   Query.test (sub.params.query.getD Query.all) d⟩])
    ∧ ∀ d : Doc, Query.test ((none : Option Query).getD Query.all) d = true := by
  refine ⟨relayToAllSubscriptions_eq_flatMap subs documents schematype,
    List.filter_sublist documents, ?_, fun d => rfl⟩
  unfold relayToSubscription
  by_cases hm : (documents.filter fun d =>
      Query.test (sub.params.query.getD Query.all) d) = []
  · rw [if_pos hm, hm]
    simp
  · rw [if_neg hm]
    have hlen : ((documents.filter fun d =>
        Query.test (sub.params.query.getD Query.all) d).length != 0) = true := by
      simpa [bne_iff_ne, List.length_eq_zero] using hm
    rw [if_pos hlen]

/-- Claim C2: a second handleSubscription for the same webhook replaces the
stored subscription entirely (the registry then holds the new command itself
under that webhook, and keys stay unique), and relay behavior for that
webhook is afterwards determined only by the new subscription's query and
schema type. -/
theorem resubscribe_replaces_and_governs_relay
    (st : ActorState) (hinv : RegistryInv st.subscriptions)
    (sOld sNew : Command) (_hW : sOld.params.webhook = sNew.params.webhook)
    (documents : List Doc) (schematype : String) :
    lookupKey
        (handleSubscription (handleSubscription st sOld).1 sNew).1.subscriptions
        sNew.params.webhook = some sNew
    ∧ RegistryInv
        (handleSubscription (handleSubscription st sOld).1 sNew).1.subscriptions
    ∧ deliveriesTo sNew.params.webhook
        (relayToAllSubscriptions
          (handleSubscription (handleSubscription st sOld).1 sNew).1.subscriptions
          documents schematype)
        = (if schematype == sNew.params.schemaType
           then relayToSubscription documents sNew
           else []) := by
  have hsubs :
      (handleSubscription (handleSubscription st sOld).1 sNew).1.subscriptions
        = upsert (upsert st.subscriptions sOld.params.webhook sOld)
            sNew.params.webhook sNew := rfl
  have hinv2 : RegistryInv
      (upsert (upsert st.subscriptions sOld.params.webhook sOld)
        sNew.params.webhook sNew) :=
    registryInv_upsert _ (registryInv_upsert _ hinv sOld) sNew
  refine ⟨?_, ?_, ?_⟩
  · rw [hsubs]
    exact lookupKey_upsert_self _ _ _
  · rw [hsubs]
    exact hinv2
  · rw [hsubs]
    rw [deliveriesTo_relayToAllSubscriptions documents schematype _ hinv2
      sNew.params.webhook]
    rw [lookupKey_upsert_self]

/-- Witness for C2 at concrete inputs: re-subscribing webhook W with a
query-free subscription replaces the open-status subscription, and a relay of
the sample batch then sends W the full batch, as the new query dictates. -/
theorem resubscribe_replaces_and_governs_relay_witness :
    lookupKey
        (handleSubscription (handleSubscription initActor exSubOld).1
          exSubNew).1.subscriptions "W" = some exSubNew
    ∧ deliveriesTo "W"
        (relayToAllSubscriptions
          (handleSubscription (handleSubscription initActor exSubOld).1
            exSubNew).1.subscriptions
          exBatch "form")
        = (if ("form" : String) == exSubNew.params.schemaType
           then relayToSubscription exBatch exSubNew
           else []) :=
  ⟨(resubscribe_replaces_and_governs_relay initActor (by decide) exSubOld
      exSubNew rfl exBatch "form").1,
   (resubscribe_replaces_and_governs_relay initActor (by decide) exSubOld
      exSubNew rfl exBatch "form").2.2⟩

/-- Claim C3: the command type is registered automatically at construction,
and its onIncoming handler emits exactly one command event per document of
the batch, in the batch's array order. -/
theorem command_endpoint_emits_one_event_per_document :
    lookupKey initActor.config "command" = some commandTypeConfig
    ∧ ∀ documents : List Command,
        commandOnIncoming documents = documents.map Event.command := by
  constructor
  · rfl
  · intro documents
    have h := foldl_append_singleton Event.command documents []
    simpa [commandOnIncoming] using h

/-- Claim C4: inbound dispatch first computes the relay of the raw batch
against the pre-dispatch registry, then invokes the configured onIncoming
callback with the batch, its result (with falsy as null) forming the
response; the relay outcome is the same whatever callback is configured, or
none. -/
theorem inbound_dispatch_relays_then_invokes_callback
    (st : ActorState) (schematype : String) (documents : List Doc)
    (f : List Doc → ActorState → ActorState × Option String) :
    dispatchIncoming st schematype documents (some f)
      = ((f documents st).1,
         relayToAllSubscriptions st.subscriptions documents schematype,
         some (f documents st).2)
    ∧ ∀ g, (dispatchIncoming st schematype documents g).2.1
        = relayToAllSubscriptions st.subscriptions documents schematype := by
  constructor
  · rfl
  · intro g
    cases g <;> rfl

/-- Claim C5 (refuted, code bug): with the Node events-module bus the actor
uses, a listener that throws synchronously aborts emit, so a listener
registered later never runs on that command (only 1 of the 2 listeners runs
and the later listener's registry write is absent); a mutation made by an
earlier listener does survive a later listener's throw. -/
theorem throwing_listener_skips_later_listeners :
    (emitToListeners [listenerThrowing, listenerRecording] cmdPing
      initActor).2.2 = 1
    ∧ (emitToListeners [listenerThrowing, listenerRecording] cmdPing
        initActor).1.subscriptions = []
    ∧ (emitToListeners [listenerRecording, listenerThrowing] cmdPing
        initActor).1.subscriptions = [("ran", cmdPing)] :=
  ⟨rfl, rfl, rfl⟩

/-- Claim C6: a subscribe command with params.hydrate set, handled by a
handler installed with a hydrate capability, records the subscription first
(head of the trace), and then relays the awaited snapshot through the same
query-predicate-then-batch logic to the new subscription only: every delivery
of the run is addressed to the new subscription's webhook. -/
theorem hydration_relays_snapshot_only_to_new_subscriber
    (h : SubHandler) (cap : Command → Except String (List Doc))
    (cmd : Command) (st : ActorState) (docs : List Doc)
    (hcap : h.options.hydrate = some cap) (hc : cmd.command = "subscribe")
    (ht : cmd.params.schemaType = h.schemaType)
    (hh : cmd.params.hydrate = true) (hres : cap cmd = Except.ok docs) :
    runSubHandler h cmd st
      = ({ st with
            subscriptions := upsert st.subscriptions cmd.params.webhook cmd },
         [Action.recordSubscription cmd.params.webhook cmd,
          Action.emitEvent (Event.subscription cmd)]
           ++ (relayToSubscription docs cmd).map Action.deliver)
    ∧ (∀ d : Delivery, Action.deliver d ∈ (runSubHandler h cmd st).2 →
        d.webhook = cmd.params.webhook)
    ∧ (runSubHandler h cmd st).2.head?
        = some (Action.recordSubscription cmd.params.webhook cmd) := by
  have heq := runSubHandler_hydrate_ok h cap cmd st docs hcap hc ht hh hres
  refine ⟨heq, ?_, ?_⟩
  · intro d hd
    rw [heq] at hd
    simp only [List.cons_append, List.nil_append, List.mem_cons] at hd
    rcases hd with h1 | h1 | h1
    · exact absurd h1 (by simp)
    · exact absurd h1 (by simp)
    · rcases List.mem_map.mp h1 with ⟨d2, hd2, hmapeq⟩
      have hdd : d2 = d := by injection hmapeq
      rw [← hdd]
      exact relayToSubscription_webhook docs cmd d2 hd2
  · rw [heq]
    rfl

/-- Witness for C6 at concrete inputs: the sample hydrating subscription is
recorded first and the snapshot batch is filtered by its open-status query
and delivered to it. -/
theorem hydration_relays_snapshot_only_to_new_subscriber_witness :
    runSubHandler exHandlerOk exSubHyd initActor
      = ({ initActor with
            subscriptions := upsert initActor.subscriptions
              exSubHyd.params.webhook exSubHyd },
         [Action.recordSubscription exSubHyd.params.webhook exSubHyd,
          Action.emitEvent (Event.subscription exSubHyd)]
           ++ (relayToSubscription exBatch exSubHyd).map Action.deliver)
    ∧ (runSubHandler exHandlerOk exSubHyd initActor).2.head?
        = some (Action.recordSubscription exSubHyd.params.webhook exSubHyd) :=
  ⟨(hydration_relays_snapshot_only_to_new_subscriber exHandlerOk exHydrateOk
      exSubHyd initActor exBatch rfl rfl rfl rfl rfl).1,
   (hydration_relays_snapshot_only_to_new_subscriber exHandlerOk exHydrateOk
      exSubHyd initActor exBatch rfl rfl rfl rfl rfl).2.2⟩

/-- Claim C7: when every document of the dispatched batch carries the
endpoint's schema type (the transport contract for a batch posted to that
endpoint), every document delivered to a subscription's webhook has exactly
that subscription's params.schemaType. -/
theorem relay_never_crosses_schema_types
    (subs : List (String × Command)) (hinv : RegistryInv subs)
    (documents : List Doc) (schematype : String)
    (hdocs : ∀ d ∈ documents, d.schemaType = schematype)
    (del : Delivery)
    (hdel : del ∈ relayToAllSubscriptions subs documents schematype)
    (sub : Command) (hsub : lookupKey subs del.webhook = some sub) :
    ∀ d ∈ del.documents, d.schemaType = sub.params.schemaType := by
  rcases mem_relayToAllSubscriptions subs documents schematype del hdel
    with ⟨p, hp, htype, hdp⟩
  rcases p with ⟨k, s⟩
  have hkey : k = s.params.webhook := hinv.1 (k, s) hp
  have hweb : del.webhook = s.params.webhook :=
    relayToSubscription_webhook documents s del hdp
  have hlook : lookupKey subs del.webhook = some s := by
    rw [hweb, ← hkey]
    exact lookupKey_of_mem subs hinv k s hp
  have hsubeq : sub = s := by
    rw [hlook] at hsub
    exact (Option.some.inj hsub).symm
  intro d hd
  have hdin : d ∈ documents :=
    relayToSubscription_documents_subset documents s del hdp d hd
  rw [hsubeq, ← beq_iff_eq.mp htype]
  exact hdocs d hdin

/-- Witness for C7 at concrete inputs: the open-status form document relayed
to the sample form subscription carries that subscription's schema type. -/
theorem relay_never_crosses_schema_types_witness :
    exFormOpen.schemaType = exSubOld.params.schemaType :=
  relay_never_crosses_schema_types exRegistryC7 (by decide) exBatch "form"
    (by decide) ⟨"W", [exFormOpen]⟩ (by decide) exSubOld (by decide)
    exFormOpen (by decide)

/-- Claim C8 (refuted, code bug): after registering the form type twice with
allowSubscribe (which the source permits and which overwrites the stored
config to a single entry), one subscribe command fires the subscription event
twice, once per installed duplicate listener, where a single registration
fires it exactly once. -/
theorem reregistered_type_fires_subscription_event_twice :
    subscriptionEventCount (dispatchCommand (setupActor exRegsTwice)
      exSubNew).2 = 2
    ∧ subscriptionEventCount (dispatchCommand (setupActor exRegs)
        exSubNew).2 = 1
    ∧ (setupActor exRegsTwice).config
        = [("command", commandTypeConfig), ("form", formCfgSub)] :=
  ⟨rfl, rfl, rfl⟩

/-- Claim C9: when the hydrate capability of a matching subscribe command
fails or returns an empty snapshot, the subscription is still recorded
exactly as it would otherwise be, is found in the registry, no delivery is
made by the run, and the subscription keeps receiving relays of later batches
of its schema type. -/
theorem hydration_failure_leaves_subscription_intact
    (h : SubHandler) (cap : Command → Except String (List Doc))
    (cmd : Command) (st : ActorState)
    (hcap : h.options.hydrate = some cap) (hc : cmd.command = "subscribe")
    (ht : cmd.params.schemaType = h.schemaType)
    (hh : cmd.params.hydrate = true)
    (hinv : RegistryInv st.subscriptions)
    (hfail : (∃ e, cap cmd = Except.error e) ∨ cap cmd = Except.ok []) :
    (runSubHandler h cmd st).1.subscriptions
        = upsert st.subscriptions cmd.params.webhook cmd
    ∧ lookupKey (runSubHandler h cmd st).1.subscriptions cmd.params.webhook
        = some cmd
    ∧ (∀ d : Delivery, Action.deliver d ∉ (runSubHandler h cmd st).2)
    ∧ ∀ documents : List Doc,
        deliveriesTo cmd.params.webhook
          (relayToAllSubscriptions (runSubHandler h cmd st).1.subscriptions
            documents cmd.params.schemaType)
          = relayToSubscription documents cmd := by
  have heq : runSubHandler h cmd st
      = ({ st with
            subscriptions := upsert st.subscriptions cmd.params.webhook cmd },
         [Action.recordSubscription cmd.params.webhook cmd,
          Action.emitEvent (Event.subscription cmd)]) := by
    rcases hfail with ⟨e, herr⟩ | hok
    · exact runSubHandler_hydrate_error h cap cmd st e hcap hc ht hh herr
    · have h0 := runSubHandler_hydrate_ok h cap cmd st [] hcap hc ht hh hok
      rw [h0]
      rfl
  have hsubs : (runSubHandler h cmd st).1.subscriptions
      = upsert st.subscriptions cmd.params.webhook cmd := by
    rw [heq]
  refine ⟨hsubs, ?_, ?_, ?_⟩
  · rw [hsubs]
    exact lookupKey_upsert_self _ _ _
  · intro d hd
    rw [heq] at hd
    simp only [List.mem_cons, List.not_mem_nil] at hd
    rcases hd with h1 | h1 | h1
    · exact absurd h1 (by simp)
    · exact absurd h1 (by simp)
    · exact h1
  · intro documents
    rw [hsubs]
    rw [deliveriesTo_relayToAllSubscriptions documents cmd.params.schemaType
      (upsert st.subscriptions cmd.params.webhook cmd)
      (registryInv_upsert st.subscriptions hinv cmd) cmd.params.webhook]
    rw [lookupKey_upsert_self]
    show (if (cmd.params.schemaType == cmd.params.schemaType) = true
          then relayToSubscription documents cmd
          else []) = relayToSubscription documents cmd
    rw [if_pos (beq_self_eq_true _)]

/-- Witness for C9 at concrete inputs: with the failing hydrate capability
the hydrating subscription is still found in the registry and still receives
the sample batch filtered by its own query on a later relay. -/
theorem hydration_failure_leaves_subscription_intact_witness :
    lookupKey (runSubHandler exHandlerFail exSubHyd initActor).1.subscriptions
        "W" = some exSubHyd
    ∧ deliveriesTo "W"
        (relayToAllSubscriptions
          (runSubHandler exHandlerFail exSubHyd initActor).1.subscriptions
          exBatch "form")
        = relayToSubscription exBatch exSubHyd :=
  ⟨(hydration_failure_leaves_subscription_intact exHandlerFail exHydrateFail
      exSubHyd initActor rfl rfl rfl rfl (by decide)
      (Or.inl ⟨"snapshot source unavailable", rfl⟩)).2.1,
   (hydration_failure_leaves_subscription_intact exHandlerFail exHydrateFail
      exSubHyd initActor rfl rfl rfl rfl (by decide)
      (Or.inl ⟨"snapshot source unavailable", rfl⟩)).2.2.2 exBatch⟩

/-- Claim C10: dispatching a command document that is not a subscribe
command, or whose params.schemaType matches no type registered with
allowSubscribe, leaves the actor state (hence the subscription registry)
unchanged and produces an empty trace: no subscription event, no delivery. -/
theorem unmatched_subscribe_is_noop
    (regs : List (String × SchemaTypeConfig)) (cmd : Command)
    (hmiss : cmd.command ≠ "subscribe"
      ∨ ∀ p ∈ regs, p.2.allowSubscribe.getD false = true →
          cmd.params.schemaType ≠ p.1) :
    dispatchCommand (setupActor regs) cmd = (setupActor regs, []) := by
  apply dispatchCommand_noop
  intro h hmem
  rcases mem_handlers_foldl_register regs initActor h hmem
    with hin | ⟨p, hp, hallow, htype⟩
  · rw [initActor_handlers] at hin
    simp at hin
  · rcases hmiss with hm | hm
    · exact Or.inl hm
    · exact Or.inr fun hEq => hm p hp hallow (htype ▸ hEq)

/-- Witness for C10 at concrete inputs: a subscribe command for the
unregistered order type dispatched against an actor that registered only the
form type changes nothing and produces no action. -/
theorem unmatched_subscribe_is_noop_witness :
    dispatchCommand (setupActor exRegs) exSubOrder = (setupActor exRegs, []) :=
  unmatched_subscribe_is_noop exRegs exSubOrder (Or.inr (by decide))

end Claims

end ModuleActor
